import Mathlib

/-!
Verification development for the shopify-mirakl-sync repository.

The repository has two JavaScript variants of the same integration:
`src/index.js` (the full variant: products, inventory, orders, tracking)
and `src/unnamed/part_000` (the simplified variant: inventory and orders
only).  This file shallowly embeds the pure data transforms and the
stateful sync routines of the `SyncManager` class of both variants, and
proves or refutes the frozen claims about them.

JavaScript truthiness conventions used throughout the embedding:
`x || y` on a string falls through to `y` when `x` is `undefined`,
`null` or the empty string; on a number it falls through when `x` is
`0` (so for integers `x || 0` is the identity on present values and `0`
on absent ones).  Absent fields are modelled as `Option`.
-/

set_option autoImplicit false

namespace MiraklSync

/-- JS `a || b` for an optional string `a`: the empty string is falsy,
so `undefined`, `null` and `""` all fall through to `b`
(e.g. `variant.sku || ...` in both variants). -/
def jsOrStr (a : Option String) (b : String) : String :=
  match a with
  | some s => if s = "" then b else s
  | none => b

/-- JS `a || b` for two optional strings, keeping the result optional
(e.g. `product.body_html || product.title` in `part_000`). -/
def jsOrOptStr (a b : Option String) : Option String :=
  match a with
  | some s => if s = "" then b else some s
  | none => b

/-- JS `x || 0` for an optional integer: `undefined`/`null` become `0`,
`0 || 0 = 0`, and any other integer passes through unchanged
(e.g. `level.available || 0` in both variants). -/
def jsNumOrZero (x : Option Int) : Int :=
  match x with
  | none => 0
  | some v => v

/-- How `Array.prototype.join` renders an optional string element:
`undefined`/`null` render as the empty string. -/
def joinElem (o : Option String) : String :=
  match o with
  | some s => s
  | none => ""

/-! ## `cleanDescription` (src/index.js:460-463, src/unnamed/part_000:303-306)

The code is `html.replace(/<[^>]*>/g, '').replace(/"/g, '""').substring(0, cap)`
with cap 500 in the full variant and cap 200 in the simplified variant.
The simplified variant returns the literal `Product description` for a
falsy input where the full variant returns the empty string. -/

/-- One step of the regex `<[^>]*>`: given the characters after a `<`,
drop everything up to and including the first `>`; `none` when no `>`
follows (the regex then fails at this start position). -/
def dropTag : List Char → Option (List Char)
  | [] => none
  | c :: cs => if c = '>' then some cs else dropTag cs

theorem dropTag_length : ∀ {cs out : List Char}, dropTag cs = some out → out.length < cs.length := by
  intro cs
  induction cs with
  | nil => intro out h; simp [dropTag] at h
  | cons c cs ih =>
    intro out h
    simp only [dropTag] at h
    by_cases hc : c = '>'
    · rw [if_pos hc] at h
      injection h with h
      subst h
      simp only [List.length_cons]
      omega
    · rw [if_neg hc] at h
      exact Nat.lt_trans (ih h) (Nat.lt_succ_self _)

/-- Global replacement of `/<[^>]*>/g` by the empty string: the regex
only matches starting at a `<`, consumes up to the first following `>`,
and the scan resumes after the match (a `<` with no later `>` stays). -/
def stripTags : List Char → List Char
  | [] => []
  | c :: cs =>
    if c = '<' then
      match h : dropTag cs with
      | some rest => stripTags rest
      | none => c :: stripTags cs
    else c :: stripTags cs
termination_by s => s.length
decreasing_by
  · simp only [List.length_cons]
    exact Nat.lt_trans (dropTag_length h) (Nat.lt_succ_self _)
  · simp [List.length_cons]
  · simp [List.length_cons]

/-- Global replacement of `/"/g` by `""`: every double quote is doubled. -/
def doubleQuotes (s : List Char) : List Char :=
  s.flatMap (fun c => if c = '"' then ['"', '"'] else [c])

/-- `cleanDescription` of the full variant (src/index.js:460-463):
falsy input yields the empty string, otherwise strip tags, double
quotes, truncate to 500 characters. -/
def cleanDescription (html : Option String) : String :=
  match html with
  | none => ""
  | some s =>
    if s = "" then ""
    else String.mk (List.take 500 (doubleQuotes (stripTags s.toList)))

/-- `cleanDescription` of the simplified variant
(src/unnamed/part_000:303-306): falsy input yields the literal
`Product description`, otherwise strip tags, double quotes, truncate
to 200 characters. -/
def cleanDescriptionSimple (html : Option String) : String :=
  match html with
  | none => "Product description"
  | some s =>
    if s = "" then "Product description"
    else String.mk (List.take 200 (doubleQuotes (stripTags s.toList)))

/-! ## `extractMiraklOrderId` (src/index.js:480-494) -/

/-- The character class `\s` of JavaScript regular expressions. -/
def jsWhite (c : Char) : Bool :=
  c.toNat = 32 || c.toNat = 9 || c.toNat = 10 || c.toNat = 11 || c.toNat = 12 ||
  c.toNat = 13 || c.toNat = 160 || c.toNat = 5760 ||
  (8192 ≤ c.toNat && c.toNat ≤ 8202) || c.toNat = 8232 || c.toNat = 8233 ||
  c.toNat = 8239 || c.toNat = 8287 || c.toNat = 12288 || c.toNat = 65279

/-- Leftmost match of a regex of the shape `lit(CLASS+)` where `CLASS`
is the character class decided by `p`: scan start positions left to
right; at the first position where the literal is a prefix and at
least one `CLASS` character follows it, capture the maximal (greedy)
run of `CLASS` characters. -/
def searchLitCap (lit : List Char) (p : Char → Bool) : List Char → Option (List Char)
  | [] => none
  | c :: cs =>
    if lit.isPrefixOf (c :: cs) then
      let cap := ((c :: cs).drop lit.length).takeWhile p
      if cap.isEmpty then searchLitCap lit p cs else some cap
    else searchLitCap lit p cs

/-- The note branch of `extractMiraklOrderId` (src/index.js:482-485):
`if (shopifyOrder.note)` skips a falsy note, otherwise matches
`/Mirakl Order ID: ([^\s]+)/` and returns the capture. -/
def extractFromNote (note : Option String) : Option String :=
  match note with
  | some n =>
    if n = "" then none
    else (searchLitCap (String.toList ("Mirakl Order ID: "))
      (fun c => !jsWhite c) n.toList).map String.mk
  | none => none

/-- The tags branch of `extractMiraklOrderId` (src/index.js:488-491):
`if (shopifyOrder.tags)` skips falsy tags, otherwise matches
`/Order-([^\s,]+)/` and returns the capture. -/
def extractFromTags (tags : Option String) : Option String :=
  match tags with
  | some t =>
    if t = "" then none
    else (searchLitCap (String.toList ("Order-"))
      (fun c => !jsWhite c && !(c = ',')) t.toList).map String.mk
  | none => none

/-- `extractMiraklOrderId` (src/index.js:480-494): try the note regex
first, fall back to the tags regex, else `null`. -/
def extractMiraklOrderId (note tags : Option String) : Option String :=
  match extractFromNote note with
  | some r => some r
  | none => extractFromTags tags

/-! ## Order data model and `syncOrders`
(src/index.js:347-398, src/unnamed/part_000:247-298; the two variants'
`syncOrders` bodies are identical) -/

/-- A Mirakl address block as read by `convertAddress`. -/
structure AddressIn where
  firstname : Option String
  lastname : Option String
  street_1 : Option String
  street_2 : Option String
  city : Option String
  addrState : Option String
  country_iso_code : Option String
  zip_code : Option String
  phone : Option String
deriving DecidableEq

/-- A Shopify address block as written by `convertAddress`. -/
structure AddressOut where
  first_name : Option String
  last_name : Option String
  address1 : Option String
  address2 : Option String
  city : Option String
  province : Option String
  country : Option String
  zip : Option String
  phone : Option String
deriving DecidableEq

/-- `convertAddress` (src/index.js:465-478, src/unnamed/part_000:308-321):
a field-rename-only transform; a falsy address yields `null`. -/
def convertAddress (address : Option AddressIn) : Option AddressOut :=
  match address with
  | none => none
  | some a => some
    { first_name := a.firstname
      last_name := a.lastname
      address1 := a.street_1
      address2 := a.street_2
      city := a.city
      province := a.addrState
      country := a.country_iso_code
      zip := a.zip_code
      phone := a.phone }

/-- The nested `customer` block of a Mirakl order. -/
structure CustomerM where
  email : Option String
deriving DecidableEq

/-- The nested `offer` block of a Mirakl order line. -/
structure OfferRefM where
  product_title : Option String
  sku : Option String
deriving DecidableEq

/-- One `order_lines` entry of a Mirakl order. -/
structure OrderLineM where
  offer : Option OfferRefM
  price : Option String
  quantity : Option Int
deriving DecidableEq

/-- A Mirakl order as consumed by `syncOrders`. -/
structure MiraklOrderM where
  order_id : String
  customer : Option CustomerM
  order_lines : List OrderLineM
  shipping_address : Option AddressIn
  billing_address : Option AddressIn
deriving DecidableEq

/-- One Shopify `line_items` entry of the outbound order payload. -/
structure LineItemM where
  title : String
  price : Option String
  quantity : Option Int
  sku : Option String
deriving DecidableEq

/-- The Shopify order-creation payload built by `syncOrders`. -/
structure StorefrontDraft where
  email : String
  line_items : List LineItemM
  shipping_address : Option AddressOut
  billing_address : Option AddressOut
  financial_status : String
  tags : String
  note : String
deriving DecidableEq

/-- The `shopifyOrderData` object built inside the `syncOrders` loop
(src/index.js:367-380, src/unnamed/part_000:267-280). -/
def buildShopifyOrderData (o : MiraklOrderM) : StorefrontDraft :=
  { email := jsOrStr (o.customer.bind (fun c => c.email)) ("noemail@mirakl.order")
    line_items := o.order_lines.map (fun line =>
      { title := jsOrStr (line.offer.bind (fun f => f.product_title)) ("Product")
        price := line.price
        quantity := line.quantity
        sku := line.offer.bind (fun f => f.sku) })
    shipping_address := convertAddress o.shipping_address
    billing_address := convertAddress o.billing_address
    financial_status := "paid"
    tags := "Mirakl,Order-" ++ o.order_id
    note := "Mirakl Order ID: " ++ o.order_id }

/-- The order returned by Shopify's order-creation endpoint. -/
structure CreatedOrderM where
  order_number : Nat
deriving DecidableEq

/-- The in-memory `syncState` object / the persisted `sync-state.json`
record of the full variant (src/index.js:229-235). -/
structure SyncState where
  lastProductSync : Option String
  lastInventorySync : Option String
  lastOrderSync : Option String
  lastTrackingSync : Option String
  processedOrders : List String
deriving DecidableEq

/-- The zero-value checkpoint returned by `loadSyncState` when the
state file is missing or unreadable (src/index.js:229-235). -/
def defaultSyncState : SyncState :=
  { lastProductSync := none
    lastInventorySync := none
    lastOrderSync := none
    lastTrackingSync := none
    processedOrders := [] }

/-- The in-memory state plus the durable `sync-state.json` contents. -/
structure EngineState where
  mem : SyncState
  disk : SyncState
deriving DecidableEq

/-- The value a sync routine returns: the success object or the
`{success: false, error}` object built by its `catch` block. -/
inductive SyncResult where
  | success (createdCount : Nat)
  | failure (error : String)
deriving DecidableEq

/-- The `for (const miraklOrder of orders)` loop of `syncOrders`
(src/index.js:359-387).  `create` is the outcome of the
`shopify.createOrder` gateway call on a given payload (`Except.error`
models a thrown error).  Returns the in-memory state after the loop
(pushes done before a throw survive, since the loop mutates
`this.syncState` in place), the list of orders for which `createOrder`
was actually called, in call order, and `Except.error e` when the loop
was aborted by a throw. -/
def syncOrdersLoop (create : StorefrontDraft → Except String CreatedOrderM) :
    List MiraklOrderM → SyncState → SyncState × List MiraklOrderM × Except String Unit
  | [], st => (st, [], Except.ok ())
  | o :: rest, st =>
    if st.processedOrders.contains o.order_id then
      syncOrdersLoop create rest st
    else
      match create (buildShopifyOrderData o) with
      | Except.error e => (st, [o], Except.error e)
      | Except.ok _ =>
        let st' := { st with processedOrders := st.processedOrders ++ [o.order_id] }
        let r := syncOrdersLoop create rest st'
        (r.1, o :: r.2.1, r.2.2)

/-- `syncOrders` (src/index.js:347-398): fetch (`orders` is the list the
Mirakl gateway returned), early-return on an empty list, run the loop,
then on success set `lastOrderSync := now` and persist the whole state;
a throw inside the loop is caught and turned into a failure result with
no `lastOrderSync` update and no save.  Returns the new engine state,
the orders submitted to `createOrder`, and the routine's result value
(`createdCount` on the success path equals the number of successful
creations, which is every submitted order). -/
def syncOrders (create : StorefrontDraft → Except String CreatedOrderM) (now : String)
    (orders : List MiraklOrderM) (es : EngineState) :
    EngineState × List MiraklOrderM × SyncResult :=
  if orders.isEmpty then (es, [], SyncResult.success 0)
  else
    let r := syncOrdersLoop create orders es.mem
    match r.2.2 with
    | Except.ok _ =>
      let mem2 := { r.1 with lastOrderSync := some now }
      (⟨mem2, mem2⟩, r.2.1, SyncResult.success r.2.1.length)
    | Except.error e => (⟨r.1, es.disk⟩, r.2.1, SyncResult.failure e)

/-- `loadSyncState` (src/index.js:221-236): `contents` is the durable
file (`none` when `fs.existsSync` is false), `parse` is `JSON.parse`
(`none` models a thrown parse/read error).  Returns the checkpoint and
whether the `catch` block logged a warning.  Missing file: default
state, no warning.  Parse/read throw: default state, warning.  Parse
success: the parsed record, no warning. -/
def loadSyncState (contents : Option String) (parse : String → Option SyncState) :
    SyncState × Bool :=
  match contents with
  | none => (defaultSyncState, false)
  | some s =>
    match parse s with
    | some st => (st, false)
    | none => (defaultSyncState, true)

/-! ## Product / inventory CSV model
(src/index.js:249-342 `syncProducts` and `syncInventory`;
src/unnamed/part_000:178-242 `syncInventory`) -/

/-- A Shopify product variant as consumed by the sync routines. -/
structure VariantM where
  id : Nat
  sku : Option String
  barcode : Option String
  price : Option String
  inventory_item_id : Nat
  inventory_quantity : Option Int
deriving DecidableEq

/-- A Shopify product as consumed by the sync routines. -/
structure ProductM where
  title : Option String
  body_html : Option String
  variants : List VariantM
deriving DecidableEq

/-- One Shopify inventory level row. -/
structure InventoryLevelM where
  inventory_item_id : Nat
  available : Option Int
deriving DecidableEq

/-- Lookup in the `inventoryMap` object of `syncInventory` in the full
variant (src/index.js:314-317): `inventoryMap[level.inventory_item_id]
= level.available || 0` for each level in order, later assignments
overwriting earlier ones; no clamping. -/
def invMapIndex (levels : List InventoryLevelM) (id : Nat) : Option Int :=
  levels.foldl
    (fun m l => if id = l.inventory_item_id then some (jsNumOrZero l.available) else m) none

/-- Lookup in the `inventoryMap` object of `syncInventory` in the
simplified variant (src/unnamed/part_000:197-200):
`inventoryMap[level.inventory_item_id] = Math.max(0, level.available || 0)`. -/
def invMapSimple (levels : List InventoryLevelM) (id : Nat) : Option Int :=
  levels.foldl
    (fun m l => if id = l.inventory_item_id then some (max 0 (jsNumOrZero l.available)) else m)
    none

/-- The quantity written by the full variant's `syncInventory`
(src/index.js:324): `inventoryMap[variant.inventory_item_id] || 0`. -/
def quantityIndexInv (levels : List InventoryLevelM) (v : VariantM) : Int :=
  jsNumOrZero (invMapIndex levels v.inventory_item_id)

/-- The quantity written by the simplified variant's `syncInventory`
(src/unnamed/part_000:209):
`Math.max(0, inventoryMap[variant.inventory_item_id] || 0)`. -/
def quantitySimpleInv (levels : List InventoryLevelM) (v : VariantM) : Int :=
  max 0 (jsNumOrZero (invMapSimple levels v.inventory_item_id))

/-- The raw `available` value the last matching inventory level carries
(`none` when no level matches; `some none` when a level matches but its
`available` field is absent).  Spec-side helper used to state the
clamp claim against the raw source data. -/
def rawInvLookup (levels : List InventoryLevelM) (id : Nat) : Option (Option Int) :=
  levels.foldl (fun m l => if id = l.inventory_item_id then some l.available else m) none

/-- Sku selection of the full variant's `syncProducts`
(src/index.js:265): `variant.sku || SHOPIFY-<id>`; no barcode step. -/
def skuProducts (v : VariantM) : String :=
  jsOrStr v.sku ("SHOPIFY-" ++ toString v.id)

/-- Sku selection of the simplified variant's `syncInventory`
(src/unnamed/part_000:208):
`variant.sku || variant.barcode || SHOPIFY-<id>`. -/
def skuInventorySimple (v : VariantM) : String :=
  jsOrStr v.sku (jsOrStr v.barcode ("SHOPIFY-" ++ toString v.id))

/-- Wrapping of the description field in double quotes. -/
def quoteWrap (s : String) : String := "\"" ++ s ++ "\""

/-- Header row of the full variant's `syncProducts` CSV
(src/index.js:261). -/
def headerProducts : String :=
  "sku;product-id;product-id-type;price;quantity;state;description"

/-- Header row of the full variant's `syncInventory` CSV
(src/index.js:320). -/
def headerInventoryIndex : String := "sku;quantity"

/-- Header row of the simplified variant's `syncInventory` CSV
(src/unnamed/part_000:204). -/
def headerInventorySimple : String :=
  "sku;product-id;product-id-type;price;quantity;state;description;leadtime-to-ship"

/-- One data row of the full variant's `syncProducts` CSV
(src/index.js:266-274): `[sku, sku, 'SHOP_SKU', variant.price,
variant.inventory_quantity || 0, '11', "<description>"].join(';')`
(an absent `variant.price` renders as the empty string in `join`). -/
def rowProducts (p : ProductM) (v : VariantM) : String :=
  String.intercalate (";")
    [skuProducts v, skuProducts v, "SHOP_SKU", joinElem v.price,
      toString (jsNumOrZero v.inventory_quantity), "11",
      quoteWrap (cleanDescription p.body_html)]

/-- One data row of the full variant's `syncInventory` CSV
(src/index.js:325): `${variant.sku || variant.id};${quantity}`. -/
def rowInventoryIndex (levels : List InventoryLevelM) (v : VariantM) : String :=
  jsOrStr v.sku (toString v.id) ++ ";" ++ toString (quantityIndexInv levels v)

/-- One data row of the simplified variant's `syncInventory` CSV
(src/unnamed/part_000:213-222): `[sku, sku, 'SHOP_SKU', price,
quantity, '11', "<description>", '2'].join(';')` with
`price = variant.price || '0.00'` and the description built from
`product.body_html || product.title`. -/
def rowInventorySimple (levels : List InventoryLevelM) (p : ProductM) (v : VariantM) : String :=
  String.intercalate (";")
    [skuInventorySimple v, skuInventorySimple v, "SHOP_SKU", jsOrStr v.price ("0.00"),
      toString (quantitySimpleInv levels v), "11",
      quoteWrap (cleanDescriptionSimple (jsOrOptStr p.body_html p.title)), "2"]

/-- The `csvLines` array of the full variant's `syncProducts`
(src/index.js:261-277): header first, then one `push` per variant in
product-then-variant fetch order. -/
def syncProductsCsvLines (ps : List ProductM) : List String :=
  ps.foldl (fun acc p => p.variants.foldl (fun acc2 v => acc2 ++ [rowProducts p v]) acc)
    [headerProducts]

/-- The `csvLines` array of the full variant's `syncInventory`
(src/index.js:320-327). -/
def syncInventoryIndexCsvLines (ps : List ProductM) (levels : List InventoryLevelM) :
    List String :=
  ps.foldl
    (fun acc p => p.variants.foldl (fun acc2 v => acc2 ++ [rowInventoryIndex levels v]) acc)
    [headerInventoryIndex]

/-- The `csvLines` array of the simplified variant's `syncInventory`
(src/unnamed/part_000:204-225). -/
def syncInventorySimpleCsvLines (ps : List ProductM) (levels : List InventoryLevelM) :
    List String :=
  ps.foldl
    (fun acc p => p.variants.foldl (fun acc2 v => acc2 ++ [rowInventorySimple levels p v]) acc)
    [headerInventorySimple]

/-- `csvLines.join('\n')`: the payload string handed to the Mirakl
offer-import gateway call. -/
def csvOfLines (lines : List String) : String :=
  String.intercalate ("\n") lines

/-! ## Spec-side helpers and supporting lemmas -/

/-- Keep the first occurrence of each element, skipping any element
already seen (`seen` starts as the already-processed identifiers). -/
def dedupFirstAux (seen : List String) : List String → List String
  | [] => []
  | x :: xs =>
    if seen.contains x then dedupFirstAux seen xs
    else x :: dedupFirstAux (seen ++ [x]) xs

/-- First-occurrence deduplication of a list of identifiers. -/
def dedupFirst (l : List String) : List String := dedupFirstAux [] l

theorem dedupFirstAux_subset :
    ∀ (l seen : List String) (x : String), x ∈ dedupFirstAux seen l → x ∈ l := by
  intro l
  induction l with
  | nil => intro seen x h; simp [dedupFirstAux] at h
  | cons y ys ih =>
    intro seen x h
    simp only [dedupFirstAux] at h
    by_cases hc : seen.contains y
    · rw [if_pos hc] at h
      exact List.mem_cons_of_mem _ (ih seen x h)
    · rw [if_neg hc] at h
      rcases List.mem_cons.mp h with h1 | h2
      · exact h1 ▸ List.mem_cons_self _ _
      · exact List.mem_cons_of_mem _ (ih (seen ++ [y]) x h2)

theorem dedupFirstAux_complete :
    ∀ (l seen : List String) (x : String), x ∈ l → x ∈ seen ∨ x ∈ dedupFirstAux seen l := by
  intro l
  induction l with
  | nil => intro seen x h; simp at h
  | cons y ys ih =>
    intro seen x h
    simp only [dedupFirstAux]
    by_cases hc : seen.contains y
    · rw [if_pos hc]
      rcases List.mem_cons.mp h with h1 | h2
      · exact Or.inl (h1 ▸ List.elem_iff.mp hc)
      · exact ih seen x h2
    · rw [if_neg hc]
      rcases List.mem_cons.mp h with h1 | h2
      · exact Or.inr (h1 ▸ List.mem_cons_self _ _)
      · rcases ih (seen ++ [y]) x h2 with h3 | h4
        · rcases List.mem_append.mp h3 with h5 | h6
          · exact Or.inl h5
          · exact Or.inr (List.mem_singleton.mp h6 ▸ List.mem_cons_self _ _)
        · exact Or.inr (List.mem_cons_of_mem _ h4)

theorem dedupFirstAux_congr :
    ∀ (l seen1 seen2 : List String),
      (∀ x ∈ l, (x ∈ seen1 ↔ x ∈ seen2)) → dedupFirstAux seen1 l = dedupFirstAux seen2 l := by
  intro l
  induction l with
  | nil => intro seen1 seen2 _; rfl
  | cons y ys ih =>
    intro seen1 seen2 hiff
    simp only [dedupFirstAux]
    have hy : (seen1.contains y) = (seen2.contains y) := by
      have := hiff y (List.mem_cons_self _ _)
      by_cases h1 : y ∈ seen1
      · have h2 := this.mp h1
        simp [h1, h2]
      · have h2 : y ∉ seen2 := fun h => h1 (this.mpr h)
        simp [h1, h2]
    rw [hy]
    by_cases hc : seen2.contains y
    · rw [if_pos hc, if_pos hc]
      exact ih seen1 seen2 (fun x hx => hiff x (List.mem_cons_of_mem _ hx))
    · rw [if_neg hc, if_neg hc]
      congr 1
      refine ih (seen1 ++ [y]) (seen2 ++ [y]) (fun x hx => ?_)
      simp only [List.mem_append, List.mem_singleton]
      have := hiff x (List.mem_cons_of_mem _ hx)
      tauto

/-- On an all-successes batch, the loop terminates normally, appends
exactly the attempted identifiers to `processedOrders`, and attempts
exactly the first occurrence of each identifier not yet processed. -/
theorem syncOrdersLoop_ok (create : StorefrontDraft → Except String CreatedOrderM) :
    ∀ (os : List MiraklOrderM) (st : SyncState),
      (∀ o ∈ os, ∃ c, create (buildShopifyOrderData o) = Except.ok c) →
      (syncOrdersLoop create os st).1.processedOrders
          = st.processedOrders ++ ((syncOrdersLoop create os st).2.1.map (fun o => o.order_id)) ∧
      ((syncOrdersLoop create os st).2.1.map (fun o => o.order_id))
          = dedupFirstAux st.processedOrders (os.map (fun o => o.order_id)) ∧
      (syncOrdersLoop create os st).2.2 = Except.ok () := by
  intro os
  induction os with
  | nil => intro st _; simp [syncOrdersLoop, dedupFirstAux]
  | cons o rest ih =>
    intro st hok
    by_cases hc : st.processedOrders.contains o.order_id
    · have hrec := ih st (fun o' ho' => hok o' (List.mem_cons_of_mem _ ho'))
      simp only [syncOrdersLoop, hc, if_true, List.map_cons, dedupFirstAux]
      exact hrec
    · obtain ⟨c, hcreate⟩ := hok o (List.mem_cons_self o rest)
      have hrec := ih { st with processedOrders := st.processedOrders ++ [o.order_id] }
        (fun o' ho' => hok o' (List.mem_cons_of_mem _ ho'))
      simp only [syncOrdersLoop, hc, if_false, Bool.false_eq_true, hcreate, List.map_cons,
        dedupFirstAux]
      refine ⟨?_, ?_, hrec.2.2⟩
      · rw [hrec.1]
        simp [List.append_assoc]
      · rw [hrec.2.1]

/-- Orders that are all already processed are all skipped: no
`createOrder` call, no state change. -/
theorem syncOrdersLoop_skip (create : StorefrontDraft → Except String CreatedOrderM) :
    ∀ (os : List MiraklOrderM) (st : SyncState),
      (∀ o ∈ os, o.order_id ∈ st.processedOrders) →
      syncOrdersLoop create os st = (st, [], Except.ok ()) := by
  intro os
  induction os with
  | nil => intro st _; rfl
  | cons o rest ih =>
    intro st hall
    have hc : st.processedOrders.contains o.order_id :=
      List.elem_iff.mpr (hall o (List.mem_cons_self o rest))
    simp only [syncOrdersLoop, hc, if_true]
    exact ih st (fun o' ho' => hall o' (List.mem_cons_of_mem _ ho'))

/-- A loop over `l1 ++ l2` whose `l1` part does not throw is the loop
over `l1` continued by the loop over `l2`. -/
theorem syncOrdersLoop_append_ok (create : StorefrontDraft → Except String CreatedOrderM) :
    ∀ (l1 l2 : List MiraklOrderM) (st : SyncState),
      (syncOrdersLoop create l1 st).2.2 = Except.ok () →
      syncOrdersLoop create (l1 ++ l2) st =
        ((syncOrdersLoop create l2 (syncOrdersLoop create l1 st).1).1,
          (syncOrdersLoop create l1 st).2.1
            ++ (syncOrdersLoop create l2 (syncOrdersLoop create l1 st).1).2.1,
          (syncOrdersLoop create l2 (syncOrdersLoop create l1 st).1).2.2) := by
  intro l1
  induction l1 with
  | nil => intro l2 st _; simp [syncOrdersLoop]
  | cons o rest ih =>
    intro l2 st h1
    rw [List.cons_append]
    by_cases hc : st.processedOrders.contains o.order_id
    · simp only [syncOrdersLoop, hc, if_true] at h1 ⊢
      exact ih l2 st h1
    · have hm : o.order_id ∉ st.processedOrders := fun hmem => hc (List.elem_iff.mpr hmem)
      cases hcr : create (buildShopifyOrderData o) with
      | error e =>
        simp [syncOrdersLoop, hm, hcr] at h1
      | ok c =>
        simp only [syncOrdersLoop, hc, if_false, Bool.false_eq_true, hcr] at h1 ⊢
        have := ih l2 { st with processedOrders := st.processedOrders ++ [o.order_id] } h1
        simp [this]

/-- A loop over `l1 ++ l2` whose `l1` part throws never reaches `l2`. -/
theorem syncOrdersLoop_append_err (create : StorefrontDraft → Except String CreatedOrderM) :
    ∀ (l1 l2 : List MiraklOrderM) (st : SyncState) (e : String),
      (syncOrdersLoop create l1 st).2.2 = Except.error e →
      syncOrdersLoop create (l1 ++ l2) st = syncOrdersLoop create l1 st := by
  intro l1
  induction l1 with
  | nil => intro l2 st e h; simp [syncOrdersLoop] at h
  | cons o rest ih =>
    intro l2 st e h
    rw [List.cons_append]
    by_cases hc : st.processedOrders.contains o.order_id
    · simp only [syncOrdersLoop, hc, if_true] at h ⊢
      exact ih l2 st e h
    · have hm : o.order_id ∉ st.processedOrders := fun hmem => hc (List.elem_iff.mpr hmem)
      cases hcr : create (buildShopifyOrderData o) with
      | error e2 => simp [syncOrdersLoop, hm, hcr]
      | ok c =>
        simp only [syncOrdersLoop, hc, if_false, Bool.false_eq_true, hcr] at h ⊢
        have := ih l2 { st with processedOrders := st.processedOrders ++ [o.order_id] } e (by
          simpa using h)
        simp [this]

/-- Whatever the gateway outcomes, the loop only appends to
`processedOrders`. -/
theorem syncOrdersLoop_processed_growth (create : StorefrontDraft → Except String CreatedOrderM) :
    ∀ (os : List MiraklOrderM) (st : SyncState),
      ∃ d, (syncOrdersLoop create os st).1.processedOrders = st.processedOrders ++ d := by
  intro os
  induction os with
  | nil => intro st; exact ⟨[], by simp [syncOrdersLoop]⟩
  | cons o rest ih =>
    intro st
    by_cases hc : st.processedOrders.contains o.order_id
    · simpa only [syncOrdersLoop, hc, if_true] using ih st
    · simp only [syncOrdersLoop, hc, if_false, Bool.false_eq_true]
      cases hcr : create (buildShopifyOrderData o) with
      | error e => exact ⟨[], by simp⟩
      | ok c =>
        obtain ⟨d, hd⟩ := ih { st with processedOrders := st.processedOrders ++ [o.order_id] }
        exact ⟨o.order_id :: d, by simpa [List.append_assoc] using hd⟩

/-- Whatever the gateway outcomes, the loop preserves distinctness of
`processedOrders`. -/
theorem syncOrdersLoop_nodup (create : StorefrontDraft → Except String CreatedOrderM) :
    ∀ (os : List MiraklOrderM) (st : SyncState),
      st.processedOrders.Nodup → (syncOrdersLoop create os st).1.processedOrders.Nodup := by
  intro os
  induction os with
  | nil => intro st h; simpa [syncOrdersLoop] using h
  | cons o rest ih =>
    intro st h
    by_cases hc : st.processedOrders.contains o.order_id
    · simpa only [syncOrdersLoop, hc, if_true] using ih st h
    · simp only [syncOrdersLoop, hc, if_false, Bool.false_eq_true]
      cases hcr : create (buildShopifyOrderData o) with
      | error e => simpa using h
      | ok c =>
        refine ih { st with processedOrders := st.processedOrders ++ [o.order_id] } ?_
        have hnm : o.order_id ∉ st.processedOrders := fun hm => hc (List.elem_iff.mpr hm)
        simp [List.nodup_append, h, hnm]

/-- The loop itself never touches `lastOrderSync`; only the epilogue
after a fully successful loop does. -/
theorem syncOrdersLoop_lastOrderSync (create : StorefrontDraft → Except String CreatedOrderM) :
    ∀ (os : List MiraklOrderM) (st : SyncState),
      (syncOrdersLoop create os st).1.lastOrderSync = st.lastOrderSync := by
  intro os
  induction os with
  | nil => intro st; rfl
  | cons o rest ih =>
    intro st
    by_cases hc : st.processedOrders.contains o.order_id
    · simpa only [syncOrdersLoop, hc, if_true] using ih st
    · simp only [syncOrdersLoop, hc, if_false, Bool.false_eq_true]
      cases hcr : create (buildShopifyOrderData o) with
      | error e => rfl
      | ok c => exact ih _

/-- Evaluation of `syncOrders` on a nonempty batch whose loop does not
throw: `lastOrderSync` advances and the whole state is persisted. -/
theorem syncOrders_eval_ok (create : StorefrontDraft → Except String CreatedOrderM)
    (now : String) (os : List MiraklOrderM) (es : EngineState) (hne : os ≠ [])
    (hok2 : (syncOrdersLoop create os es.mem).2.2 = Except.ok ()) :
    syncOrders create now os es =
      (⟨{ (syncOrdersLoop create os es.mem).1 with lastOrderSync := some now },
        { (syncOrdersLoop create os es.mem).1 with lastOrderSync := some now }⟩,
        (syncOrdersLoop create os es.mem).2.1,
        SyncResult.success (syncOrdersLoop create os es.mem).2.1.length) := by
  have hE : os.isEmpty = false := by simp [List.isEmpty_iff, hne]
  simp [syncOrders, hE, hok2]

/-- Evaluation of `syncOrders` on a nonempty batch whose loop throws:
the error is caught, `lastOrderSync` is untouched and nothing is
persisted. -/
theorem syncOrders_eval_err (create : StorefrontDraft → Except String CreatedOrderM)
    (now : String) (os : List MiraklOrderM) (es : EngineState) (e : String) (hne : os ≠ [])
    (herr : (syncOrdersLoop create os es.mem).2.2 = Except.error e) :
    syncOrders create now os es =
      (⟨(syncOrdersLoop create os es.mem).1, es.disk⟩,
        (syncOrdersLoop create os es.mem).2.1, SyncResult.failure e) := by
  have hE : os.isEmpty = false := by simp [List.isEmpty_iff, hne]
  simp [syncOrders, hE, herr]

/-! ## Claim theorems -/

/-- C1.  Order-sync idempotence: over a batch of fresh marketplace
orders (none already processed) with a succeeding order-creation
gateway, the first `syncOrders` run calls `createOrder` exactly once
per distinct marketplace order identifier (first occurrences, in fetch
order); a second run over the same list makes no `createOrder` call at
all, reports success with zero creations, and leaves `processedOrders`
(in memory and on disk) unchanged. -/
theorem syncOrders_idempotent (create : StorefrontDraft → Except String CreatedOrderM)
    (now1 now2 : String) (os : List MiraklOrderM) (es : EngineState)
    (hok : ∀ o ∈ os, ∃ c, create (buildShopifyOrderData o) = Except.ok c)
    (hnew : ∀ o ∈ os, o.order_id ∉ es.mem.processedOrders) :
    (syncOrders create now1 os es).2.1.map (fun o => o.order_id)
        = dedupFirst (os.map (fun o => o.order_id)) ∧
    (syncOrders create now1 os es).2.2
        = SyncResult.success (dedupFirst (os.map (fun o => o.order_id))).length ∧
    (syncOrders create now2 os (syncOrders create now1 os es).1).2.1 = [] ∧
    (syncOrders create now2 os (syncOrders create now1 os es).1).2.2 = SyncResult.success 0 ∧
    (syncOrders create now2 os (syncOrders create now1 os es).1).1.mem.processedOrders
        = (syncOrders create now1 os es).1.mem.processedOrders ∧
    (syncOrders create now2 os (syncOrders create now1 os es).1).1.disk.processedOrders
        = (syncOrders create now1 os es).1.disk.processedOrders := by
  by_cases hos : os = []
  · subst hos
    simp [syncOrders, dedupFirst, dedupFirstAux]
  · have hloop := syncOrdersLoop_ok create os es.mem hok
    have hids : (syncOrdersLoop create os es.mem).2.1.map (fun o => o.order_id)
        = dedupFirst (os.map (fun o => o.order_id)) := by
      rw [hloop.2.1, dedupFirst]
      refine dedupFirstAux_congr _ _ _ (fun x hx => ?_)
      obtain ⟨o, ho, rfl⟩ := List.mem_map.mp hx
      simp [hnew o ho]
    have h1 := syncOrders_eval_ok create now1 os es hos hloop.2.2
    have hall : ∀ o ∈ os, o.order_id ∈ (syncOrders create now1 os es).1.mem.processedOrders := by
      intro o ho
      rw [h1]
      show o.order_id ∈ (syncOrdersLoop create os es.mem).1.processedOrders
      rw [hloop.1, hloop.2.1]
      rcases dedupFirstAux_complete (os.map (fun o => o.order_id)) es.mem.processedOrders
          o.order_id (List.mem_map_of_mem _ ho) with h | h
      · exact List.mem_append.mpr (Or.inl h)
      · exact List.mem_append.mpr (Or.inr h)
    have hskip := syncOrdersLoop_skip create os (syncOrders create now1 os es).1.mem
      (fun o ho => hall o ho)
    have hok2 : (syncOrdersLoop create os (syncOrders create now1 os es).1.mem).2.2
        = Except.ok () := by rw [hskip]
    have h2 := syncOrders_eval_ok create now2 os (syncOrders create now1 os es).1 hos hok2
    refine ⟨by rw [h1]; exact hids, ?_, ?_, ?_, ?_, ?_⟩
    · rw [h1]
      show SyncResult.success (syncOrdersLoop create os es.mem).2.1.length = _
      rw [← hids, ← List.length_map (syncOrdersLoop create os es.mem).2.1 (fun o => o.order_id)]
    · rw [h2, hskip]
    · rw [h2, hskip]
      rfl
    · rw [h2, hskip]
    · rw [h2, hskip]
      show (syncOrders create now1 os es).1.mem.processedOrders
          = (syncOrders create now1 os es).1.disk.processedOrders
      rw [h1]

/-- Witness for C1 at a concrete batch with a repeated identifier. -/
theorem syncOrders_idempotent_witness :
    (syncOrders (fun _ => Except.ok ⟨1001⟩) ("t1")
        [⟨"A", none, [], none, none⟩, ⟨"B", none, [], none, none⟩, ⟨"A", none, [], none, none⟩]
        ⟨defaultSyncState, defaultSyncState⟩).2.1.map (fun o => o.order_id) = ["A", "B"] ∧
    (syncOrders (fun _ => Except.ok ⟨1001⟩) ("t2")
        [⟨"A", none, [], none, none⟩, ⟨"B", none, [], none, none⟩, ⟨"A", none, [], none, none⟩]
        ((syncOrders (fun _ => Except.ok ⟨1001⟩) ("t1")
          [⟨"A", none, [], none, none⟩, ⟨"B", none, [], none, none⟩, ⟨"A", none, [], none, none⟩]
          ⟨defaultSyncState, defaultSyncState⟩).1)).2.1 = [] := by
  have h := syncOrders_idempotent (fun _ => Except.ok ⟨1001⟩) ("t1") ("t2")
    [⟨"A", none, [], none, none⟩, ⟨"B", none, [], none, none⟩, ⟨"A", none, [], none, none⟩]
    ⟨defaultSyncState, defaultSyncState⟩
    (fun o _ => ⟨⟨1001⟩, rfl⟩) (by decide)
  exact ⟨by rw [h.1]; decide, h.2.2.1⟩

/-- C4.  Partial-batch failure atomicity: when `createOrder` throws on
one order of the batch, the remaining orders are never submitted (the
run over the full batch equals the run over the batch truncated right
after the failing order), the routine returns the caught
`{success: false, error}` result instead of rethrowing, the persisted
checkpoint file is exactly what it was before the routine ran, and the
in-memory `lastOrderSync` is not advanced. -/
theorem syncOrders_partial_failure_atomic
    (create : StorefrontDraft → Except String CreatedOrderM) (now : String)
    (pre : List MiraklOrderM) (bad : MiraklOrderM) (post : List MiraklOrderM)
    (es : EngineState) (e : String)
    (hok : ∀ o ∈ pre, ∃ c, create (buildShopifyOrderData o) = Except.ok c)
    (hbad : create (buildShopifyOrderData bad) = Except.error e)
    (hnew : bad.order_id ∉ es.mem.processedOrders)
    (hnotpre : bad.order_id ∉ pre.map (fun o => o.order_id)) :
    syncOrders create now (pre ++ bad :: post) es = syncOrders create now (pre ++ [bad]) es ∧
    (syncOrders create now (pre ++ bad :: post) es).2.2 = SyncResult.failure e ∧
    (syncOrders create now (pre ++ bad :: post) es).1.disk = es.disk ∧
    (syncOrders create now (pre ++ bad :: post) es).1.mem.lastOrderSync
        = es.mem.lastOrderSync := by
  have hloopPre := syncOrdersLoop_ok create pre es.mem hok
  have hm1 : bad.order_id ∉ (syncOrdersLoop create pre es.mem).1.processedOrders := by
    rw [hloopPre.1, hloopPre.2.1]
    intro hmem
    rcases List.mem_append.mp hmem with h | h
    · exact hnew h
    · exact hnotpre (dedupFirstAux_subset _ _ _ h)
  have hloopBad :
      syncOrdersLoop create [bad] (syncOrdersLoop create pre es.mem).1
        = ((syncOrdersLoop create pre es.mem).1, [bad], Except.error e) := by
    simp [syncOrdersLoop, hm1, hbad]
  have hloopTrunc :
      syncOrdersLoop create (pre ++ [bad]) es.mem
        = ((syncOrdersLoop create pre es.mem).1,
            (syncOrdersLoop create pre es.mem).2.1 ++ [bad], Except.error e) := by
    rw [syncOrdersLoop_append_ok create pre [bad] es.mem hloopPre.2.2, hloopBad]
  have hloopFull :
      syncOrdersLoop create (pre ++ bad :: post) es.mem
        = syncOrdersLoop create (pre ++ [bad]) es.mem := by
    have hassoc : pre ++ bad :: post = (pre ++ [bad]) ++ post := by simp
    rw [hassoc]
    exact syncOrdersLoop_append_err create (pre ++ [bad]) post es.mem e (by rw [hloopTrunc])
  have hneFull : pre ++ bad :: post ≠ [] := by simp
  have hneTrunc : pre ++ [bad] ≠ [] := by simp
  have hErrFull : (syncOrdersLoop create (pre ++ bad :: post) es.mem).2.2 = Except.error e := by
    rw [hloopFull, hloopTrunc]
  have hErrTrunc : (syncOrdersLoop create (pre ++ [bad]) es.mem).2.2 = Except.error e := by
    rw [hloopTrunc]
  have hFull := syncOrders_eval_err create now (pre ++ bad :: post) es e hneFull hErrFull
  have hTrunc := syncOrders_eval_err create now (pre ++ [bad]) es e hneTrunc hErrTrunc
  refine ⟨?_, ?_, ?_, ?_⟩
  · rw [hFull, hTrunc, hloopFull]
  · rw [hFull]
  · rw [hFull]
  · rw [hFull]
    show (syncOrdersLoop create (pre ++ bad :: post) es.mem).1.lastOrderSync
        = es.mem.lastOrderSync
    rw [hloopFull, hloopTrunc]
    show ((syncOrdersLoop create pre es.mem).1).lastOrderSync = es.mem.lastOrderSync
    have := syncOrdersLoop_lastOrderSync create pre es.mem
    exact this

/-- Witness for C4: a two-order batch whose second order's creation
fails; the third order is never submitted and the checkpoint survives. -/
theorem syncOrders_partial_failure_atomic_witness :
    syncOrders
        (fun d => if d.tags = "Mirakl,Order-B" then Except.error ("boom") else Except.ok ⟨7⟩)
        ("t1")
        [⟨"A", none, [], none, none⟩, ⟨"B", none, [], none, none⟩, ⟨"C", none, [], none, none⟩]
        ⟨defaultSyncState, defaultSyncState⟩
      = syncOrders
        (fun d => if d.tags = "Mirakl,Order-B" then Except.error ("boom") else Except.ok ⟨7⟩)
        ("t1")
        [⟨"A", none, [], none, none⟩, ⟨"B", none, [], none, none⟩]
        ⟨defaultSyncState, defaultSyncState⟩ ∧
    (syncOrders
        (fun d => if d.tags = "Mirakl,Order-B" then Except.error ("boom") else Except.ok ⟨7⟩)
        ("t1")
        [⟨"A", none, [], none, none⟩, ⟨"B", none, [], none, none⟩, ⟨"C", none, [], none, none⟩]
        ⟨defaultSyncState, defaultSyncState⟩).1.disk = defaultSyncState := by
  have h := syncOrders_partial_failure_atomic
    (fun d => if d.tags = "Mirakl,Order-B" then Except.error ("boom") else Except.ok ⟨7⟩)
    ("t1") [⟨"A", none, [], none, none⟩] ⟨"B", none, [], none, none⟩
    [⟨"C", none, [], none, none⟩] ⟨defaultSyncState, defaultSyncState⟩ ("boom")
    (fun o ho => ⟨⟨7⟩, by
      have ho' : o = ⟨"A", none, [], none, none⟩ := List.mem_singleton.mp ho
      subst ho'
      rfl⟩)
    (by rfl) (by simp [defaultSyncState]) (by decide)
  exact ⟨h.1, h.2.2.1⟩

/-- C5.  `processedOrders` is append-only (identifiers present before a
run keep their positions) and stays duplicate-free on every execution
of `syncOrders`, whatever the fetched list and the gateway outcomes. -/
theorem syncOrders_processed_append_only_nodup
    (create : StorefrontDraft → Except String CreatedOrderM) (now : String)
    (os : List MiraklOrderM) (es : EngineState) :
    (∃ d, (syncOrders create now os es).1.mem.processedOrders
        = es.mem.processedOrders ++ d) ∧
    (es.mem.processedOrders.Nodup →
      (syncOrders create now os es).1.mem.processedOrders.Nodup) := by
  by_cases hos : os = []
  · subst hos
    exact ⟨⟨[], by simp [syncOrders]⟩, fun h => by simpa [syncOrders] using h⟩
  · have hE : os.isEmpty = false := by simp [List.isEmpty_iff, hos]
    have hmem : (syncOrders create now os es).1.mem.processedOrders
        = (syncOrdersLoop create os es.mem).1.processedOrders := by
      cases hr : (syncOrdersLoop create os es.mem).2.2 with
      | ok u =>
        cases u
        rw [syncOrders_eval_ok create now os es hos hr]
      | error e =>
        rw [syncOrders_eval_err create now os es e hos hr]
    rw [hmem]
    exact ⟨syncOrdersLoop_processed_growth create os es.mem,
      syncOrdersLoop_nodup create os es.mem⟩

/-- Witness for C5 at a batch with a repeated identifier and a failing
creation, starting from a nonempty duplicate-free checkpoint. -/
theorem syncOrders_processed_append_only_nodup_witness :
    (∃ d, (syncOrders (fun d => if d.tags = "Mirakl,Order-C" then Except.error ("x")
            else Except.ok ⟨3⟩) ("t")
          [⟨"A", none, [], none, none⟩, ⟨"A", none, [], none, none⟩,
            ⟨"B", none, [], none, none⟩, ⟨"C", none, [], none, none⟩]
          ⟨{ defaultSyncState with processedOrders := ["Z"] },
            { defaultSyncState with processedOrders := ["Z"] }⟩).1.mem.processedOrders
        = ["Z"] ++ d) ∧
    ((["Z"] : List String).Nodup →
      (syncOrders (fun d => if d.tags = "Mirakl,Order-C" then Except.error ("x")
            else Except.ok ⟨3⟩) ("t")
          [⟨"A", none, [], none, none⟩, ⟨"A", none, [], none, none⟩,
            ⟨"B", none, [], none, none⟩, ⟨"C", none, [], none, none⟩]
          ⟨{ defaultSyncState with processedOrders := ["Z"] },
            { defaultSyncState with processedOrders := ["Z"] }⟩).1.mem.processedOrders.Nodup) :=
  syncOrders_processed_append_only_nodup
    (fun d => if d.tags = "Mirakl,Order-C" then Except.error ("x") else Except.ok ⟨3⟩) ("t")
    [⟨"A", none, [], none, none⟩, ⟨"A", none, [], none, none⟩,
      ⟨"B", none, [], none, none⟩, ⟨"C", none, [], none, none⟩]
    ⟨{ defaultSyncState with processedOrders := ["Z"] },
      { defaultSyncState with processedOrders := ["Z"] }⟩

/-- Relates the simplified variant's inventory map to the raw source
levels: each stored value is the clamp of the last written raw value. -/
theorem invMapSimple_raw :
    ∀ (levels : List InventoryLevelM) (id : Nat),
      invMapSimple levels id
        = (rawInvLookup levels id).map (fun a => max 0 (jsNumOrZero a)) := by
  have haux : ∀ (levels : List InventoryLevelM) (id : Nat) (m0 : Option Int)
      (r0 : Option (Option Int)), m0 = r0.map (fun a => max 0 (jsNumOrZero a)) →
      levels.foldl
          (fun m l => if id = l.inventory_item_id then some (max 0 (jsNumOrZero l.available))
            else m) m0
        = (levels.foldl
            (fun m l => if id = l.inventory_item_id then some l.available else m) r0).map
            (fun a => max 0 (jsNumOrZero a)) := by
    intro levels
    induction levels with
    | nil => intro id m0 r0 h; simpa using h
    | cons l ls ih =>
      intro id m0 r0 h
      simp only [List.foldl_cons]
      by_cases hid : id = l.inventory_item_id
      · exact ih id _ _ (by simp [hid])
      · exact ih id _ _ (by simp [hid, h])
  intro levels id
  exact haux levels id none none rfl

/-- C2 [evidence].  The simplified variant's `syncInventory` does
satisfy the clamp claim — its emitted quantity is
`max 0 (raw available ?? 0)` and is never negative — but the full
variant's `syncInventory` does not clamp: with a single inventory
level `available = -5` the full variant emits quantity `-5` and the
CSV row `SKU1;-5`, violating the never-negative invariant the spec
declares hard. -/
theorem syncInventory_quantity_clamp_divergence :
    quantityIndexInv [⟨1, some (-5)⟩] ⟨101, some ("SKU1"), none, some ("10.00"), 1, none⟩
        = -5 ∧
    rowInventoryIndex [⟨1, some (-5)⟩] ⟨101, some ("SKU1"), none, some ("10.00"), 1, none⟩
        = "SKU1;-5" ∧
    (∀ (levels : List InventoryLevelM) (v : VariantM),
      quantitySimpleInv levels v
        = max 0 (jsNumOrZero ((rawInvLookup levels v.inventory_item_id).getD none))) ∧
    (∀ (levels : List InventoryLevelM) (v : VariantM), 0 ≤ quantitySimpleInv levels v) := by
  refine ⟨by decide, by decide, ?_, ?_⟩
  · intro levels v
    rw [quantitySimpleInv, invMapSimple_raw]
    rcases rawInvLookup levels v.inventory_item_id with _ | a
    · simp [jsNumOrZero]
    · rcases a with _ | x
      · simp [jsNumOrZero]
      · simp only [Option.map_some', Option.getD_some, jsNumOrZero]
        rw [← max_assoc, max_self]
  · intro levels v
    exact le_max_left 0 _

/-- C3 [counterexample].  The empty string is an identifier containing
no whitespace, yet the order built for it (note `Mirakl Order ID: `,
tags `Mirakl,Order-`) is not recoverable: the extractor returns `null`
because both regexes require at least one captured character. -/
theorem extractMiraklOrderId_empty_id_counterexample :
    extractMiraklOrderId (some ("Mirakl Order ID: " ++ "")) (some ("Mirakl,Order-" ++ ""))
        = none ∧ (none : Option String) ≠ some ("") := by
  refine ⟨by decide, by decide⟩

theorem isPrefixOf_append_self : ∀ (l1 l2 : List Char), l1.isPrefixOf (l1 ++ l2) = true := by
  intro l1
  induction l1 with
  | nil => intro l2; simp [List.isPrefixOf]
  | cons c cs ih =>
    intro l2
    simp [List.isPrefixOf, ih l2]

theorem isPrefixOf_exists : ∀ (l s : List Char), l.isPrefixOf s = true → ∃ t, l ++ t = s := by
  intro l
  induction l with
  | nil => intro s _; exact ⟨s, rfl⟩
  | cons c cs ih =>
    intro s h
    cases s with
    | nil => simp [List.isPrefixOf] at h
    | cons d ds =>
      simp only [List.isPrefixOf, Bool.and_eq_true, beq_iff_eq] at h
      obtain ⟨t, ht⟩ := ih ds h.2
      exact ⟨t, by rw [List.cons_append, ht, h.1]⟩

/-- The leftmost match of `lit(CLASS+)` when the string starts with the
literal followed by at least one `CLASS` character. -/
theorem searchLitCap_at_head (lit : List Char) (p : Char → Bool) (suffix : List Char)
    (hlit : lit ≠ []) (hcap : suffix.takeWhile p ≠ []) :
    searchLitCap lit p (lit ++ suffix) = some (suffix.takeWhile p) := by
  cases lit with
  | nil => exact absurd rfl hlit
  | cons c cs =>
    rw [List.cons_append]
    simp only [searchLitCap]
    have hpre : (c :: cs).isPrefixOf (c :: (cs ++ suffix)) = true := by
      rw [← List.cons_append]
      exact isPrefixOf_append_self _ _
    rw [hpre]
    simp only [if_true]
    have hdrop : (c :: (cs ++ suffix)).drop (c :: cs).length = suffix := by
      rw [← List.cons_append]
      exact List.drop_left _ _
    rw [hdrop]
    simp [List.isEmpty_iff, hcap]

/-- A successful `lit(CLASS+)` search implies the literal occurs in the
searched string. -/
theorem searchLitCap_litOccurs (lit : List Char) (p : Char → Bool) :
    ∀ (s cap : List Char), searchLitCap lit p s = some cap → List.IsInfix lit s := by
  intro s
  induction s with
  | nil => intro cap h; simp [searchLitCap] at h
  | cons c cs ih =>
    intro cap h
    simp only [searchLitCap] at h
    by_cases hpre : lit.isPrefixOf (c :: cs)
    · rw [if_pos hpre] at h
      obtain ⟨t, ht⟩ := isPrefixOf_exists lit (c :: cs) hpre
      exact ⟨[], t, by simpa using ht⟩
    · rw [if_neg hpre] at h
      exact (ih cap h).trans (List.suffix_cons c cs).isInfix

theorem takeWhile_all {p : Char → Bool} :
    ∀ (l : List Char), (∀ c ∈ l, p c = true) → l.takeWhile p = l := by
  intro l hall
  exact List.takeWhile_eq_self_iff.mpr hall

theorem string_toList_append (a b : String) : (a ++ b).toList = a.toList ++ b.toList := by
  cases a; cases b; rfl

theorem string_mk_toList (s : String) : String.mk s.toList = s := by
  cases s; rfl

theorem string_eq_empty_of_toList {s : String} (h : s.toList = []) : s = "" := by
  cases s with
  | mk d =>
    have hd : d = [] := h
    rw [hd]

/-- C3 [amended].  For every nonempty marketplace order identifier
containing no whitespace, the order created by `syncOrders` (note
`Mirakl Order ID: <id>`) is recovered by `extractMiraklOrderId`
returning exactly the identifier, from the note alone whatever the
tags hold (the tag pattern is only a fallback); and when neither the
note contains the literal `Mirakl Order ID: ` nor the tags contain the
literal `Order-`, the extractor returns `null` (a skip, not a crash). -/
theorem extractMiraklOrderId_roundtrip :
    (∀ (id : String) (tags : Option String), id ≠ "" →
      (∀ c ∈ id.toList, jsWhite c = false) →
      extractMiraklOrderId (some ("Mirakl Order ID: " ++ id)) tags = some id) ∧
    (∀ (note tags : String),
      ¬ List.IsInfix (String.toList ("Mirakl Order ID: ")) note.toList →
      ¬ List.IsInfix (String.toList ("Order-")) tags.toList →
      extractMiraklOrderId (some note) (some tags) = none) := by
  constructor
  · intro id tags hid hwhite
    have hne : ("Mirakl Order ID: " ++ id : String) ≠ "" := by
      intro h
      have := congrArg String.toList h
      rw [string_toList_append] at this
      simp at this
    have htake : id.toList.takeWhile (fun c => !jsWhite c) = id.toList :=
      takeWhile_all _ (fun c hc => by simp [hwhite c hc])
    have hcapne : id.toList.takeWhile (fun c => !jsWhite c) ≠ [] := by
      rw [htake]
      intro h
      exact hid (string_eq_empty_of_toList h)
    have hsearch : searchLitCap (String.toList ("Mirakl Order ID: ")) (fun c => !jsWhite c)
        (("Mirakl Order ID: " ++ id).toList) = some id.toList := by
      rw [string_toList_append,
        searchLitCap_at_head _ _ _ (by decide) hcapne, htake]
    have hfn : extractFromNote (some ("Mirakl Order ID: " ++ id)) = some id := by
      rw [extractFromNote, if_neg hne, hsearch, Option.map_some', string_mk_toList]
    rw [extractMiraklOrderId, hfn]
  · intro note tags hnote htags
    have hn2 : searchLitCap (String.toList ("Mirakl Order ID: "))
        (fun c => !jsWhite c) note.toList = none := by
      cases h : searchLitCap (String.toList ("Mirakl Order ID: "))
          (fun c => !jsWhite c) note.toList with
      | none => rfl
      | some cap => exact absurd (searchLitCap_litOccurs _ _ _ _ h) hnote
    have ht2 : searchLitCap (String.toList ("Order-"))
        (fun c => !jsWhite c && !(c = ',')) tags.toList = none := by
      cases h : searchLitCap (String.toList ("Order-"))
          (fun c => !jsWhite c && !(c = ',')) tags.toList with
      | none => rfl
      | some cap => exact absurd (searchLitCap_litOccurs _ _ _ _ h) htags
    have hfn : extractFromNote (some note) = none := by
      by_cases hne : note = ""
      · rw [extractFromNote, if_pos hne]
      · rw [extractFromNote, if_neg hne, hn2, Option.map_none']
    have hft : extractFromTags (some tags) = none := by
      by_cases hte : tags = ""
      · rw [extractFromTags, if_pos hte]
      · rw [extractFromTags, if_neg hte, ht2, Option.map_none']
    rw [extractMiraklOrderId, hfn, hft]

/-- Witness for C3 at the spec's own example identifier and at a
pattern-free note/tag pair. -/
theorem extractMiraklOrderId_roundtrip_witness :
    extractMiraklOrderId (some ("Mirakl Order ID: ABC123")) (some ("Mirakl,Order-ABC123"))
        = some ("ABC123") ∧
    extractMiraklOrderId (some ("no pattern here")) (some ("tags,without")) = none := by
  constructor
  · have h := extractMiraklOrderId_roundtrip.1 ("ABC123") (some ("Mirakl,Order-ABC123"))
      (by decide) (by decide)
    have happ : ("Mirakl Order ID: " ++ "ABC123" : String) = "Mirakl Order ID: ABC123" := rfl
    rw [happ] at h
    exact h
  · exact extractMiraklOrderId_roundtrip.2 ("no pattern here") ("tags,without")
      (by decide) (by decide)

/-- C6 [counterexample].  In the full variant's `syncProducts`, a
variant with no sku but with barcode `BAR` gets the synthesized sku
`SHOPIFY-5`, not its barcode: the barcode step exists only in the
simplified variant. -/
theorem skuProducts_barcode_counterexample :
    skuProducts ⟨5, none, some ("BAR"), none, 1, none⟩ = "SHOPIFY-5" ∧
    ("SHOPIFY-5" : String) ≠ "BAR" ∧
    skuInventorySimple ⟨5, none, some ("BAR"), none, 1, none⟩ = "BAR" := by
  refine ⟨by decide, by decide, by decide⟩

/-- C6 [amended].  Sku fallback: a present nonempty sku always wins; in
the simplified variant's inventory sync a present nonempty barcode is
used when the sku is missing or empty, while the full variant's
product sync goes straight to the synthesized `SHOPIFY-<id>`; with
neither a usable sku nor (for the simplified variant) a usable
barcode, both emit `SHOPIFY-<id>`. -/
theorem sku_fallback_chain (v : VariantM) :
    (∀ s, v.sku = some s → s ≠ "" →
      skuInventorySimple v = s ∧ skuProducts v = s) ∧
    (∀ b, (v.sku = none ∨ v.sku = some ("")) → v.barcode = some b → b ≠ "" →
      skuInventorySimple v = b ∧ skuProducts v = "SHOPIFY-" ++ toString v.id) ∧
    ((v.sku = none ∨ v.sku = some ("")) → (v.barcode = none ∨ v.barcode = some ("")) →
      skuInventorySimple v = "SHOPIFY-" ++ toString v.id ∧
      skuProducts v = "SHOPIFY-" ++ toString v.id) := by
  refine ⟨?_, ?_, ?_⟩
  · intro s hs hne
    simp [skuInventorySimple, skuProducts, jsOrStr, hs, hne]
  · intro b hsku hb hne
    rcases hsku with h | h <;>
      simp [skuInventorySimple, skuProducts, jsOrStr, h, hb, hne]
  · intro hsku hbar
    rcases hsku with h | h <;> rcases hbar with h2 | h2 <;>
      simp [skuInventorySimple, skuProducts, jsOrStr, h, h2]

/-- Witness for C6 at the spec's example: no sku, no barcode, id 987. -/
theorem sku_fallback_chain_witness :
    skuInventorySimple ⟨987, none, none, none, 1, none⟩ = "SHOPIFY-987" ∧
    skuProducts ⟨987, none, none, none, 1, none⟩ = "SHOPIFY-987" := by
  have h := (sku_fallback_chain ⟨987, none, none, none, 1, none⟩).2.2 (Or.inl rfl) (Or.inl rfl)
  refine ⟨?_, ?_⟩
  · rw [h.1]
    decide
  · rw [h.2]
    decide

/-- C7 [counterexample].  The simplified variant's `cleanDescription`
returns the literal `Product description` on the empty input string,
not the sanitization pipeline applied to it (which would give the
empty string). -/
theorem cleanDescriptionSimple_empty_counterexample :
    cleanDescriptionSimple (some ("")) = "Product description" ∧
    ("Product description" : String)
       ≠ String.mk (List.take 200 (doubleQuotes (stripTags (String.toList (""))))) := by
  refine ⟨rfl, ?_⟩
  have h1 : stripTags (String.toList ("")) = [] := by simp [stripTags]
  rw [h1]
  decide

/-- C7 [amended].  On every nonempty input string `cleanDescription`
strips the `<...>` tags, then doubles every double quote, then
truncates to the cap — 500 characters in the full variant, 200 in the
simplified one (a falsy input short-circuits to the empty string
resp. `Product description`); the spec's example sanitizes as claimed, and
no output ever exceeds the cap. -/
theorem cleanDescription_pipeline :
    (∀ s : String, s ≠ "" →
      cleanDescription (some s)
          = String.mk (List.take 500 (doubleQuotes (stripTags s.toList))) ∧
      cleanDescriptionSimple (some s)
          = String.mk (List.take 200 (doubleQuotes (stripTags s.toList)))) ∧
    cleanDescription (some ("<p>Nice \"item\"</p>")) = "Nice \"\"item\"\"" ∧
    cleanDescriptionSimple (some ("<p>Nice \"item\"</p>")) = "Nice \"\"item\"\"" ∧
    (∀ html : Option String, (cleanDescription html).length ≤ 500) ∧
    (∀ html : Option String, (cleanDescriptionSimple html).length ≤ 200) := by
  have h1 : stripTags (String.toList ("<p>Nice \"item\"</p>"))
      = String.toList ("Nice \"item\"") := by
    simp [stripTags, dropTag]
  refine ⟨?_, ?_, ?_, ?_, ?_⟩
  · intro s hs
    exact ⟨by simp [cleanDescription, hs], by simp [cleanDescriptionSimple, hs]⟩
  · show cleanDescription (some ("<p>Nice \"item\"</p>")) = "Nice \"\"item\"\""
    simp only [cleanDescription, h1]
    decide
  · show cleanDescriptionSimple (some ("<p>Nice \"item\"</p>")) = "Nice \"\"item\"\""
    simp only [cleanDescriptionSimple, h1]
    decide
  · intro html
    rcases html with _ | s
    · decide
    · by_cases hs : s = ""
      · simp [cleanDescription, hs]
      · simp only [cleanDescription, hs, if_neg]
        show (List.take 500 (doubleQuotes (stripTags s.toList))).length ≤ 500
        exact List.length_take_le _ _
  · intro html
    rcases html with _ | s
    · decide
    · by_cases hs : s = ""
      · simp only [cleanDescriptionSimple, hs, if_pos]
        decide
      · simp only [cleanDescriptionSimple, hs, if_neg]
        show (List.take 200 (doubleQuotes (stripTags s.toList))).length ≤ 200
        exact List.length_take_le _ _

/-- Witness for C7 at a concrete nonempty input. -/
theorem cleanDescription_pipeline_witness :
    cleanDescription (some ("<b>x</b>"))
        = String.mk (List.take 500 (doubleQuotes (stripTags (String.toList ("<b>x</b>"))))) ∧
    cleanDescriptionSimple (some ("<b>x</b>"))
        = String.mk (List.take 200 (doubleQuotes (stripTags (String.toList ("<b>x</b>"))))) :=
  cleanDescription_pipeline.1 ("<b>x</b>") (by decide)

theorem foldl_push_eq {α β : Type} (g : α → β) :
    ∀ (l : List α) (acc : List β), l.foldl (fun a x => a ++ [g x]) acc = acc ++ l.map g := by
  intro l
  induction l with
  | nil => intro acc; simp
  | cons x xs ih => intro acc; simp [ih]

theorem foldl_rows_eq (row : ProductM → VariantM → String) :
    ∀ (ps : List ProductM) (acc : List String),
      ps.foldl (fun a p => p.variants.foldl (fun a2 v => a2 ++ [row p v]) a) acc
        = acc ++ (ps.map (fun p => p.variants.map (row p))).flatten := by
  intro ps
  induction ps with
  | nil => intro acc; simp
  | cons p ps ih =>
    intro acc
    simp only [List.foldl_cons, List.map_cons, List.flatten_cons]
    rw [foldl_push_eq (row p) p.variants acc, ih]
    simp [List.append_assoc]

/-- C8 [counterexample].  The payload the full variant's
`syncInventory` hands to the Mirakl offer-import call starts with the
minimal header `sku;quantity`, not the claimed full offer header. -/
theorem syncInventoryIndex_header_counterexample :
    (syncInventoryIndexCsvLines
        [⟨none, none, [⟨1, some ("A1"), none, some ("10.00"), 1, none⟩]⟩]
        [⟨1, some 3⟩]).head? = some ("sku;quantity") ∧
    ("sku;quantity" : String)
        ≠ "sku;product-id;product-id-type;price;quantity;state;description" ∧
    ("sku;quantity" : String)
        ≠ "sku;product-id;product-id-type;price;quantity;state;description;leadtime-to-ship" := by
  refine ⟨by decide, by decide, by decide⟩

/-- C8 [amended].  The payloads built by the full variant's
`syncProducts` and by the simplified variant's `syncInventory` are the
claimed header (without resp. with the trailing `;leadtime-to-ship`
column) followed by exactly one data row per variant in
product-then-variant fetch order, each row being the semicolon-join of
the offer fields with the description field (and only it) wrapped in
double quotes; the full variant's `syncInventory` instead emits
minimal `sku;quantity` rows. -/
theorem offer_csv_shape (ps : List ProductM) (levels : List InventoryLevelM)
    (hne : ps ≠ []) :
    syncProductsCsvLines ps
        = headerProducts :: (ps.map (fun p => p.variants.map (rowProducts p))).flatten ∧
    syncInventorySimpleCsvLines ps levels
        = headerInventorySimple
          :: (ps.map (fun p => p.variants.map (rowInventorySimple levels p))).flatten ∧
    syncInventoryIndexCsvLines ps levels
        = headerInventoryIndex
          :: (ps.map (fun p => p.variants.map (fun v => rowInventoryIndex levels v))).flatten ∧
    (syncProductsCsvLines ps).length = 1 + (ps.map (fun p => p.variants.length)).sum ∧
    (syncInventorySimpleCsvLines ps levels).length
        = 1 + (ps.map (fun p => p.variants.length)).sum := by
  have h1 : syncProductsCsvLines ps
      = headerProducts :: (ps.map (fun p => p.variants.map (rowProducts p))).flatten := by
    rw [syncProductsCsvLines, foldl_rows_eq]
    rfl
  have h2 : syncInventorySimpleCsvLines ps levels
      = headerInventorySimple
        :: (ps.map (fun p => p.variants.map (rowInventorySimple levels p))).flatten := by
    rw [syncInventorySimpleCsvLines, foldl_rows_eq (fun p v => rowInventorySimple levels p v)]
    rfl
  have h3 : syncInventoryIndexCsvLines ps levels
      = headerInventoryIndex
        :: (ps.map (fun p => p.variants.map (fun v => rowInventoryIndex levels v))).flatten := by
    rw [syncInventoryIndexCsvLines, foldl_rows_eq (fun _ v => rowInventoryIndex levels v)]
    rfl
  have hlen : ∀ (f : ProductM → VariantM → String),
      ((ps.map (fun p => p.variants.map (f p))).flatten).length
        = (ps.map (fun p => p.variants.length)).sum := by
    intro f
    rw [List.length_flatten]
    congr 1
    rw [List.map_map]
    refine List.map_congr_left (fun p _ => ?_)
    simp
  refine ⟨h1, h2, h3, ?_, ?_⟩
  · rw [h1, List.length_cons, hlen rowProducts, Nat.add_comm]
  · rw [h2, List.length_cons, hlen (fun p v => rowInventorySimple levels p v), Nat.add_comm]

/-- Witness for C8 on a concrete two-variant catalog. -/
theorem offer_csv_shape_witness :
    syncProductsCsvLines
        [⟨none, none, [⟨1, some ("A1"), none, some ("10.00"), 1, none⟩,
          ⟨2, some ("A2"), none, some ("5.00"), 2, none⟩]⟩]
      = headerProducts
        :: (([⟨none, none, [⟨1, some ("A1"), none, some ("10.00"), 1, none⟩,
            ⟨2, some ("A2"), none, some ("5.00"), 2, none⟩]⟩] : List ProductM).map
          (fun p => p.variants.map (rowProducts p))).flatten :=
  (offer_csv_shape
    [⟨none, none, [⟨1, some ("A1"), none, some ("10.00"), 1, none⟩,
      ⟨2, some ("A2"), none, some ("5.00"), 2, none⟩]⟩]
    [⟨1, some 3⟩] (by decide)).1

/-- C9 [counterexample].  A missing state file yields the zero-value
checkpoint but does not log a warning: the warning is only logged by
the `catch` block, which a missing file never reaches
(`fs.existsSync` returns false without throwing). -/
theorem loadSyncState_missing_no_warning :
    loadSyncState none (fun _ => none) = (defaultSyncState, false) ∧
    (false ≠ true) := by
  refine ⟨rfl, by decide⟩

/-- C9 [amended].  `loadSyncState` is total (never throws): a missing
file yields the zero-value checkpoint with no warning logged, contents
that fail to parse yield the zero-value checkpoint after logging a
warning, and contents that parse yield the parsed record. -/
theorem loadSyncState_robust (contents : Option String)
    (parse : String → Option SyncState) :
    (contents = none → loadSyncState contents parse = (defaultSyncState, false)) ∧
    (∀ s, contents = some s → parse s = none →
      loadSyncState contents parse = (defaultSyncState, true)) ∧
    (∀ s st, contents = some s → parse s = some st →
      loadSyncState contents parse = (st, false)) := by
  refine ⟨?_, ?_, ?_⟩
  · intro h
    rw [h]
    rfl
  · intro s hs hp
    rw [hs]
    simp [loadSyncState, hp]
  · intro s st hs hp
    rw [hs]
    simp [loadSyncState, hp]

/-- Witness for C9 on unparsable contents. -/
theorem loadSyncState_robust_witness :
    loadSyncState (some ("garbage")) (fun _ => none) = (defaultSyncState, true) :=
  (loadSyncState_robust (some ("garbage")) (fun _ => none)).2.1 ("garbage") rfl rfl

/-- C10 [counterexample].  A customer whose email field is present but
empty gets the placeholder, not the (empty) customer email: `||` in
JavaScript treats the empty string as falsy. -/
theorem email_empty_counterexample :
    (buildShopifyOrderData ⟨"M1", some ⟨some ("")⟩, [], none, none⟩).email
        = "noemail@mirakl.order" ∧
    ("noemail@mirakl.order" : String) ≠ "" := by
  refine ⟨rfl, by decide⟩

/-- C10 [amended].  The outbound order draft's email is the customer
email whenever that field is present and nonempty, and the fixed
placeholder `noemail@mirakl.order` when the customer record is absent
or its email is absent or empty; the draft's email is never the empty
string, so order creation is never attempted without an email. -/
theorem email_fallback (o : MiraklOrderM) :
    (∀ c e, o.customer = some c → c.email = some e → e ≠ "" →
      (buildShopifyOrderData o).email = e) ∧
    ((o.customer = none ∨
        (∃ c, o.customer = some c ∧ (c.email = none ∨ c.email = some ("")))) →
      (buildShopifyOrderData o).email = "noemail@mirakl.order") ∧
    (buildShopifyOrderData o).email ≠ "" := by
  refine ⟨?_, ?_, ?_⟩
  · intro c e hc he hne
    simp [buildShopifyOrderData, jsOrStr, hc, he, hne]
  · intro h
    rcases h with h | ⟨c, hc, h⟩
    · simp [buildShopifyOrderData, jsOrStr, h]
    · rcases h with h | h <;> simp [buildShopifyOrderData, jsOrStr, hc, h]
  · rcases hc : o.customer with _ | c
    · simp [buildShopifyOrderData, jsOrStr, hc]
    · rcases he : c.email with _ | e
      · simp [buildShopifyOrderData, jsOrStr, hc, he]
      · by_cases hee : e = ""
        · simp [buildShopifyOrderData, jsOrStr, hc, he, hee]
        · simp [buildShopifyOrderData, jsOrStr, hc, he, hee]

/-- Witness for C10: a present nonempty email passes through; an
absent customer gets the placeholder. -/
theorem email_fallback_witness :
    (buildShopifyOrderData ⟨"M1", some ⟨some ("a@b.c")⟩, [], none, none⟩).email = "a@b.c" ∧
    (buildShopifyOrderData ⟨"M2", none, [], none, none⟩).email = "noemail@mirakl.order" :=
  ⟨(email_fallback ⟨"M1", some ⟨some ("a@b.c")⟩, [], none, none⟩).1
      ⟨some ("a@b.c")⟩ ("a@b.c") rfl rfl (by decide),
    (email_fallback ⟨"M2", none, [], none, none⟩).2.1 (Or.inl rfl)⟩

end MiraklSync
